import Mathlib

/-!
Verification of the befuddle Befunge interpreter core (src/field.rs, src/lib.rs).

Shallow embedding conventions:
* `usize` values (coordinates, sizes) are `Nat`; `i32` cells are `Int`.
* A Rust panic (integer division by zero, `try_into::<usize>().unwrap()` on a
  negative operand, out-of-bounds slice write) is modelled by `Option`:
  `none` means the step / load aborted.
* The `Vec<i32>` stack is a `List Int` whose LAST element is the top,
  matching `Vec::push` / `Vec::pop` order, so test vectors read bottom-to-top.
* The renderer's two blocking inputs (`read_character`, `read_number`) are
  supplied by an `ExtInput` record; the two outputs are returned as events.
-/

namespace Befuddle

/-- Cells are `i32`; modelled as unbounded `Int` (the claims under study do not
depend on 32-bit wraparound). -/
abbrev BefungeCell := Int

/-- `FungeField` from src/field.rs: width, height and a flat cell vector
indexed `x + y * width`. -/
structure FungeField where
  width : Nat
  height : Nat
  cells : List Int
deriving Repr, DecidableEq

namespace FungeField

/-- `FungeField::new`: an all-space (`b' '` = 32) grid of `width * height` cells. -/
def new (width height : Nat) : FungeField :=
  ⟨width, height, List.replicate (width * height) 32⟩

/-- `FungeField::get`: the cell at `(x, y)` when in-bounds, else `none`.
The flat index `x + y * width` is within `cells` whenever
`cells.length = width * height` (true of every field built by `new`/`from_str`
and preserved by `set`), so the `getD` default is never consulted there. -/
def get (f : FungeField) (x y : Nat) : Option Int :=
  if x < f.width ∧ y < f.height then some (f.cells.getD (x + y * f.width) 0) else none

/-- `FungeField::set`: write when in-bounds, silently ignore otherwise. -/
def set (f : FungeField) (x y : Nat) (value : Int) : FungeField :=
  if x < f.width ∧ y < f.height then
    { f with cells := f.cells.set (x + y * f.width) value }
  else f

/-- Rust `char::len_utf8` for a Unicode scalar value. -/
def utf8Len (c : Nat) : Nat :=
  if c < 128 then 1 else if c < 2048 then 2 else if c < 65536 then 3 else 4

/-- A write `cells[i] = v` through slice indexing: panics (`none`) out of bounds. -/
def setCellChecked (cells : List Int) (i : Nat) (v : Int) : Option (List Int) :=
  if i < cells.length then some (cells.set i v) else none

/-- The inner loop of `FungeField::load_str`: copy the characters of one line
into the row starting at flat offset `yOff`, stopping at the first column
`x ≥ width` or at the first character wider than one UTF-8 byte. -/
def loadLine (width yOff : Nat) : List Nat → Nat → List Int → Option (List Int)
  | [], _, cells => some cells
  | c :: cs, x, cells =>
    if width ≤ x ∨ 1 < utf8Len c then some cells
    else
      match setCellChecked cells (x + yOff) (Int.ofNat c) with
      | none => none
      | some cells2 => loadLine width yOff cs (x + 1) cells2

/-- The outer loop of `FungeField::load_str`: copy up to `height` lines. -/
def loadLines (width height : Nat) : List (List Nat) → Nat → List Int → Option (List Int)
  | [], _, cells => some cells
  | l :: ls, y, cells =>
    if height ≤ y then some cells
    else
      match loadLine width (y * width) l 0 cells with
      | none => none
      | some cells2 => loadLines width height ls (y + 1) cells2

/-- Strip one trailing carriage return, as Rust `str::lines` does for a line
terminated by `\r\n`. -/
def stripCr (l : List Nat) : List Nat :=
  if l.getLast? = some 13 then l.dropLast else l

/-- Model of Rust `str::lines` over a list of character code points: split at
`\n` (10), strip a `\r` (13) immediately before each `\n`, and do not emit a
final empty line after a trailing `\n`. -/
def rustLinesAux : List Nat → List Nat → List (List Nat)
  | [], acc => if acc.isEmpty then [] else [acc.reverse]
  | c :: cs, acc =>
    if c = 10 then stripCr acc.reverse :: rustLinesAux cs []
    else rustLinesAux cs (c :: acc)

/-- Rust `str::lines` on a whole input. -/
def rustLines (s : List Nat) : List (List Nat) := rustLinesAux s []

/-- `FungeField::from_str`: build an all-space grid and load the source text
into it.  `none` would mean a panicking out-of-bounds write during the load. -/
def from_str (input : List Nat) (width height : Nat) : Option FungeField :=
  match loadLines width height (rustLines input) 0 (new width height).cells with
  | none => none
  | some cells2 => some ⟨width, height, cells2⟩

/-- The flat indices written by one line of `load_str` (mirror of `loadLine`). -/
def writtenIdxLine (width yOff : Nat) : List Nat → Nat → List Nat
  | [], _ => []
  | c :: cs, x =>
    if width ≤ x ∨ 1 < utf8Len c then []
    else (x + yOff) :: writtenIdxLine width yOff cs (x + 1)

/-- The flat indices written by `load_str` (mirror of `loadLines`). -/
def writtenIdx (width height : Nat) : List (List Nat) → Nat → List Nat
  | [], _ => []
  | l :: ls, y =>
    if height ≤ y then []
    else writtenIdxLine width (y * width) l 0 ++ writtenIdx width height ls (y + 1)

end FungeField

/-- Pointer direction, `Delta` from src/lib.rs. -/
inductive Delta
  | Right
  | Left
  | Down
  | Up
deriving Repr, DecidableEq

/-- Output events emitted through the renderer (`write_character`, `write_number`). -/
inductive OutEvent
  | writeChar (c : Int)
  | writeNum (n : Int)
deriving Repr, DecidableEq

/-- The values the external input source (renderer) would return for the two
blocking reads `read_character` / `read_number`. -/
structure ExtInput where
  readCharVal : Int
  readNumVal : Int
deriving Repr, DecidableEq

/-- `Vec::pop().unwrap_or_default()`: the top (last) element, or 0 when empty,
together with the remaining stack (`Vec::pop` removes the last element). -/
def popD (s : List Int) : Int × List Int := (s.getLast?.getD 0, s.dropLast)

/-- Two's-complement wrap into the `i32` range `[-2^31, 2^31)`: the value an
overflowing `i32` addition, subtraction or multiplication produces when
overflow checks are off (Rust release profile; the debug profile panics
instead, and the two profiles agree whenever the exact result is in range). -/
def wrap32 (z : Int) : Int := (z + 2147483648) % 4294967296 - 2147483648

/-- `BefungeExecution` from src/lib.rs. -/
structure BefungeExecution where
  pc_x : Nat
  pc_y : Nat
  pc_delta : Delta
  string_mode : Bool
  field : FungeField
  stack : List Int
  active : Bool
deriving Repr, DecidableEq

namespace BefungeExecution

/-- `BefungeExecution::new`. -/
def new (field : FungeField) : BefungeExecution :=
  ⟨0, 0, Delta.Right, false, field, [], true⟩

/-- `BefungeExecution::move_pc`: one move in the current direction with
wraparound.  (`width - 1` / `height - 1` is `usize` arithmetic in the source;
the subtraction is only reached from `step` on a non-empty grid.) -/
def move_pc (e : BefungeExecution) : BefungeExecution :=
  match e.pc_delta with
  | Delta.Right =>
      { e with pc_x := if e.pc_x < e.field.width - 1 then e.pc_x + 1 else 0 }
  | Delta.Left =>
      { e with pc_x := if e.pc_x > 0 then e.pc_x - 1 else e.field.width - 1 }
  | Delta.Down =>
      { e with pc_y := if e.pc_y < e.field.height - 1 then e.pc_y + 1 else 0 }
  | Delta.Up =>
      { e with pc_y := if e.pc_y > 0 then e.pc_y - 1 else e.field.height - 1 }

/-- The opcode-dispatch `match curr as u8 { ... }` of
`BefungeExecution::step_and_render`.  The `as u8` cast is the low byte,
`(curr % 256).toNat`.  Arms appear in source order; `none` is a panic:
division/modulo with a zero divisor, division/modulo of `i32::MIN` by `-1`
(the `i32` overflow check on `/` and `%` is unconditional in Rust), or
`usize::try_from` on a negative operand in `g`/`p`.  Rust `/` and `%` on
`i32` truncate toward zero: `Int.tdiv`/`Int.tmod`.  The `+`/`-`/`*` arms
wrap their result to `i32` via `wrap32` (release-profile semantics; a debug
build panics on overflow instead, and both profiles agree whenever the exact
result is representable).  The digit arm's `curr - 48` cannot overflow for
any in-range `curr` whose low byte is a digit, so it is exact. -/
def dispatch (inp : ExtInput) (curr : Int) (e : BefungeExecution) :
    Option (BefungeExecution × List OutEvent) :=
  let op : Nat := (curr % 256).toNat
  if op = 32 then some (e, [])
  else if op = 33 then
    let (top, s) := popD e.stack
    some ({ e with stack := s ++ [if top > 0 then 0 else 1] }, [])
  else if op = 34 then some ({ e with string_mode := true }, [])
  else if op = 35 then some (e.move_pc, [])
  else if op = 36 then some ({ e with stack := e.stack.dropLast }, [])
  else if op = 37 then
    let (top, s1) := popD e.stack
    let (second, s2) := popD s1
    if second = 0 ∨ (top = -2147483648 ∧ second = -1) then none
    else some ({ e with stack := s2 ++ [top.tmod second] }, [])
  else if op = 38 then some ({ e with stack := e.stack ++ [inp.readNumVal] }, [])
  else if op = 42 then
    let (top, s1) := popD e.stack
    let (second, s2) := popD s1
    some ({ e with stack := s2 ++ [wrap32 (top * second)] }, [])
  else if op = 43 then
    let (top, s1) := popD e.stack
    let (second, s2) := popD s1
    some ({ e with stack := s2 ++ [wrap32 (top + second)] }, [])
  else if op = 44 then
    let (top, s) := popD e.stack
    some ({ e with stack := s }, [OutEvent.writeChar top])
  else if op = 45 then
    let (top, s1) := popD e.stack
    let (second, s2) := popD s1
    some ({ e with stack := s2 ++ [wrap32 (top - second)] }, [])
  else if op = 46 then
    let (top, s) := popD e.stack
    some ({ e with stack := s }, [OutEvent.writeNum top])
  else if op = 47 then
    let (top, s1) := popD e.stack
    let (second, s2) := popD s1
    if second = 0 ∨ (top = -2147483648 ∧ second = -1) then none
    else some ({ e with stack := s2 ++ [top.tdiv second] }, [])
  else if op = 58 then
    let (top, s) := popD e.stack
    some ({ e with stack := s ++ [top, top] }, [])
  else if op = 60 then some ({ e with pc_delta := Delta.Left }, [])
  else if op = 62 then some ({ e with pc_delta := Delta.Right }, [])
  else if op = 63 then some (e, [])
  else if op = 64 then some ({ e with active := false }, [])
  else if op = 92 then
    let (top, s1) := popD e.stack
    let (second, s2) := popD s1
    some ({ e with stack := s2 ++ [top, second] }, [])
  else if op = 94 then some ({ e with pc_delta := Delta.Up }, [])
  else if op = 95 then
    let (top, s) := popD e.stack
    some ({ e with stack := s
                   pc_delta := if top > 0 then Delta.Left else Delta.Right }, [])
  else if op = 96 then
    let (top, s1) := popD e.stack
    let (second, s2) := popD s1
    some ({ e with stack := s2 ++ [if top > second then 1 else 0] }, [])
  else if op = 103 then
    let (top, s1) := popD e.stack
    if top < 0 then none
    else
      let (second, s2) := popD s1
      if second < 0 then none
      else
        match e.field.get second.toNat top.toNat with
        | some val => some ({ e with stack := s2 ++ [val] }, [])
        | none => some ({ e with stack := s2 }, [])
  else if op = 112 then
    let (top, s1) := popD e.stack
    if top < 0 then none
    else
      let (second, s2) := popD s1
      if second < 0 then none
      else
        let (value, s3) := popD s2
        some ({ e with stack := s3
                       field := e.field.set second.toNat top.toNat value }, [])
  else if op = 118 then some ({ e with pc_delta := Delta.Down }, [])
  else if op = 124 then
    let (top, s) := popD e.stack
    some ({ e with stack := s
                   pc_delta := if top > 0 then Delta.Up else Delta.Down }, [])
  else if op = 126 then some ({ e with stack := e.stack ++ [inp.readCharVal] }, [])
  else if 48 ≤ op ∧ op ≤ 57 then some ({ e with stack := e.stack ++ [curr - 48] }, [])
  else some ({ e with stack := e.stack ++ [curr] }, [])

/-- The trailing `if self.active { self.move_pc(); }` of `step_and_render`. -/
def moveIfActive (e : BefungeExecution) : BefungeExecution :=
  if e.active then e.move_pc else e

/-- `BefungeExecution::step_and_render`, pure part: one step of the engine.
Returns the new state and the output events, or `none` on a panic. -/
def step (inp : ExtInput) (e : BefungeExecution) :
    Option (BefungeExecution × List OutEvent) :=
  if e.active then
    match e.field.get e.pc_x e.pc_y with
    | none => some (e, [])
    | some curr =>
      if e.string_mode then
        let e2 :=
          if curr = 34 then { e with string_mode := false }
          else { e with stack := e.stack ++ [curr] }
        some (moveIfActive e2, [])
      else
        match dispatch inp curr e with
        | none => none
        | some (e2, out) => some (moveIfActive e2, out)
  else some (e, [])

end BefungeExecution

/-- A default external input (the programs under study never read). -/
def inp0 : ExtInput := ⟨0, 0⟩

/-- Run `n` steps, aborting (`none`) if any step panics; outputs discarded. -/
def stepN (inp : ExtInput) : Nat → BefungeExecution → Option BefungeExecution
  | 0, e => some e
  | n + 1, e =>
    match BefungeExecution.step inp e with
    | none => none
    | some (e2, _) => stepN inp n e2

end Befuddle

namespace Befuddle

open FungeField BefungeExecution

/-- C8: on a field with positive width and height, from any in-bounds pointer
position one `move_pc` stays in-bounds, steps one cell along the current
direction with wraparound (past the last column/row back to zero, before
zero back to the last index), and leaves the direction and the other axis
unchanged. -/
theorem move_wraps_in_bounds (e : BefungeExecution)
    (hw : 0 < e.field.width) (hh : 0 < e.field.height)
    (hx : e.pc_x < e.field.width) (hy : e.pc_y < e.field.height) :
    (move_pc e).pc_x < e.field.width ∧ (move_pc e).pc_y < e.field.height ∧
    (move_pc e).pc_delta = e.pc_delta ∧
    (e.pc_delta = Delta.Right → (move_pc e).pc_y = e.pc_y ∧
      (move_pc e).pc_x = if e.pc_x = e.field.width - 1 then 0 else e.pc_x + 1) ∧
    (e.pc_delta = Delta.Left → (move_pc e).pc_y = e.pc_y ∧
      (move_pc e).pc_x = if e.pc_x = 0 then e.field.width - 1 else e.pc_x - 1) ∧
    (e.pc_delta = Delta.Down → (move_pc e).pc_x = e.pc_x ∧
      (move_pc e).pc_y = if e.pc_y = e.field.height - 1 then 0 else e.pc_y + 1) ∧
    (e.pc_delta = Delta.Up → (move_pc e).pc_x = e.pc_x ∧
      (move_pc e).pc_y = if e.pc_y = 0 then e.field.height - 1 else e.pc_y - 1) := by
  rcases e with ⟨x, y, d, sm, f, st, ac⟩
  rcases f with ⟨w, ht, cs⟩
  dsimp only at hw hh hx hy
  cases d <;> dsimp only [move_pc] <;>
    refine ⟨by first | omega | (split_ifs <;> omega),
            by first | omega | (split_ifs <;> omega), rfl, ?_, ?_, ?_, ?_⟩ <;>
    intro hd2 <;>
    first
      | exact absurd hd2 (by decide)
      | exact ⟨rfl, by split_ifs <;> omega⟩

/-- C8 witness: a concrete 3×2 field, pointer at the right edge facing Right. -/
theorem move_wraps_in_bounds_witness :
    (move_pc ⟨2, 1, Delta.Right, false, FungeField.new 3 2, [], true⟩).pc_x < 3 ∧
    (move_pc ⟨2, 1, Delta.Right, false, FungeField.new 3 2, [], true⟩).pc_x = 0 := by
  have h := move_wraps_in_bounds ⟨2, 1, Delta.Right, false, FungeField.new 3 2, [], true⟩
    (by decide) (by decide) (by decide) (by decide)
  exact ⟨h.1, by simpa using (h.2.2.2.1 rfl).2⟩

end Befuddle

namespace Befuddle

/-- C9: on a running, non-string-mode state whose current cell is `?` (63),
the step performs no randomization and changes nothing but the normal
single pointer advance: direction, stack, field, string-mode and active
flags are exactly as before. -/
theorem random_noop (inp : ExtInput) (e : BefungeExecution)
    (ha : e.active = true) (hs : e.string_mode = false)
    (hcell : e.field.get e.pc_x e.pc_y = some 63) :
    BefungeExecution.step inp e = some (BefungeExecution.move_pc e, []) ∧
    (BefungeExecution.move_pc e).pc_delta = e.pc_delta ∧
    (BefungeExecution.move_pc e).stack = e.stack ∧
    (BefungeExecution.move_pc e).field = e.field ∧
    (BefungeExecution.move_pc e).string_mode = e.string_mode ∧
    (BefungeExecution.move_pc e).active = e.active := by
  constructor
  · simp [BefungeExecution.step, hcell, ha, hs, BefungeExecution.dispatch,
      BefungeExecution.moveIfActive]
  · cases hd : e.pc_delta <;> simp [BefungeExecution.move_pc, hd]

/-- Concrete state for the C9 witness: a 1×1 field holding `?`. -/
def eRand : BefungeExecution := ⟨0, 0, Delta.Right, false, ⟨1, 1, [63]⟩, [], true⟩

/-- C9 witness: the `?` no-op at a concrete state. -/
theorem random_noop_witness :
    BefungeExecution.step inp0 eRand = some (BefungeExecution.move_pc eRand, []) ∧
    (BefungeExecution.move_pc eRand).pc_delta = eRand.pc_delta ∧
    (BefungeExecution.move_pc eRand).stack = eRand.stack ∧
    (BefungeExecution.move_pc eRand).field = eRand.field ∧
    (BefungeExecution.move_pc eRand).string_mode = eRand.string_mode ∧
    (BefungeExecution.move_pc eRand).active = eRand.active :=
  random_noop inp0 eRand rfl rfl (by decide)

/-- C2: on a running, non-string-mode state whose current cell is `/` (47) or
`%` (37), when the popped divisor operand (second-from-top, defaulting to
zero on underflow) is zero, the step aborts (`none`): no result value is
pushed and no default is substituted. -/
theorem div_mod_zero_fatal (inp : ExtInput) (e : BefungeExecution)
    (ha : e.active = true) (hs : e.string_mode = false)
    (hzero : (popD (popD e.stack).2).1 = 0)
    (hcell : e.field.get e.pc_x e.pc_y = some 47 ∨
      e.field.get e.pc_x e.pc_y = some 37) :
    BefungeExecution.step inp e = none := by
  simp [popD] at hzero
  rcases hcell with h | h <;>
    simp [BefungeExecution.step, ha, hs, h, BefungeExecution.dispatch, popD, hzero]

/-- Concrete state for the C2 witness: program `/` with an empty stack, so the
underflow-defaulted divisor is zero. -/
def eDivZero : BefungeExecution := BefungeExecution.new ⟨1, 1, [47]⟩

/-- C2 witness: division by zero at a concrete state is fatal. -/
theorem div_mod_zero_fatal_witness : BefungeExecution.step inp0 eDivZero = none :=
  div_mod_zero_fatal inp0 eDivZero rfl rfl (by decide) (Or.inl (by decide))

/-- Concrete state for C4: a 1×1 field with the pointer parked out of bounds
at `x = 1`, so the field read is absent. -/
def eOob : BefungeExecution := ⟨1, 0, Delta.Right, false, ⟨1, 1, [32]⟩, [], true⟩

/-- C4 counterexample: on an absent read the step leaves the pointer where it
was (`x = 1`), whereas one move in the current direction would yield `x = 0`;
the claim's "still advances the pointer by one move" is false here. -/
theorem absent_read_counterexample :
    BefungeExecution.step inp0 eOob = some (eOob, []) ∧
    eOob.pc_x = 1 ∧ (BefungeExecution.move_pc eOob).pc_x = 0 := by
  refine ⟨by decide, rfl, by decide⟩

/-- C4 amended: on a running state whose field read at the pointer is absent,
the step changes nothing at all — no stack, field, flag, or direction change,
and no pointer advance either. -/
theorem absent_read_noop (inp : ExtInput) (e : BefungeExecution)
    (ha : e.active = true)
    (hcell : e.field.get e.pc_x e.pc_y = none) :
    BefungeExecution.step inp e = some (e, []) := by
  simp [BefungeExecution.step, ha, hcell]

/-- C4 witness: the absent-read no-op at the concrete out-of-bounds state. -/
theorem absent_read_noop_witness : BefungeExecution.step inp0 eOob = some (eOob, []) :=
  absent_read_noop inp0 eOob rfl (by decide)

end Befuddle

namespace Befuddle

/-- `wrap32` is the identity on values already in the `i32` range. -/
theorem wrap32_eq_self (z : Int) (hlo : -2147483648 ≤ z) (hhi : z < 2147483648) :
    wrap32 z = z := by
  unfold wrap32
  omega

/-- Concrete state for the C1 counterexample, subtraction overflow: `-` under
the pointer with top `i32::MIN` and second `1`. -/
def eSubOvf : BefungeExecution :=
  ⟨0, 0, Delta.Right, false, ⟨1, 1, [45]⟩, [1, -2147483648], true⟩

/-- Concrete state for the C1 counterexample, division overflow: `/` under
the pointer with top `i32::MIN` and second `-1`. -/
def eDivOvf : BefungeExecution :=
  ⟨0, 0, Delta.Right, false, ⟨1, 1, [47]⟩, [-1, -2147483648], true⟩

/-- C1 counterexample: with top `a = i32::MIN` and second `b = 1`, `-` pushes
the wrapped value `2147483647`, never the exact difference `a - b =
-2147483649` the claim asserts (a debug build would panic instead of
wrapping, also never pushing it); and with `a = i32::MIN`, `b = -1`, `/`
aborts with the unconditional Rust overflow panic rather than pushing
`a / b = 2147483648`. -/
theorem binary_pop_order_counterexample :
    (BefungeExecution.step inp0 eSubOvf).map (fun p => p.1.stack) =
      some [2147483647] ∧
    ¬ (BefungeExecution.step inp0 eSubOvf).map (fun p => p.1.stack) =
      some [-2147483649] ∧
    BefungeExecution.step inp0 eDivOvf = none ∧
    ¬ (BefungeExecution.step inp0 eDivOvf).map (fun p => p.1.stack) =
      some [2147483648] := by
  decide

/-- C1 amended: on a running, non-string-mode state whose current cell is `-`
(45), `/` (47), `%` (37) or `` ` `` (96), the step pops the top value `a`,
then the second value `b`, and applies `a OP b` with the first-popped value
as the left operand, as 32-bit `i32` arithmetic: `-` pushes the exact
difference `a - b` whenever it is representable in `i32`; `/` and `%` push
`a / b` (truncated integer division) and `a % b` whenever `b ≠ 0` and
`(a, b) ≠ (i32::MIN, -1)`, and abort on that overflow pair; `` ` `` pushes
`1` if `a > b` else `0`; consequently the program `12-` leaves stack `[1]`
after three steps. -/
theorem binary_pop_order (inp : ExtInput) (e : BefungeExecution)
    (a b : Int) (s1 s2 : List Int)
    (ha : e.active = true) (hs : e.string_mode = false)
    (h1 : popD e.stack = (a, s1)) (h2 : popD s1 = (b, s2)) :
    (e.field.get e.pc_x e.pc_y = some 45 →
      -2147483648 ≤ a - b → a - b < 2147483648 →
      BefungeExecution.step inp e =
        some (BefungeExecution.move_pc { e with stack := s2 ++ [a - b] }, [])) ∧
    (e.field.get e.pc_x e.pc_y = some 47 → b ≠ 0 →
      ¬(a = -2147483648 ∧ b = -1) →
      BefungeExecution.step inp e =
        some (BefungeExecution.move_pc { e with stack := s2 ++ [a.tdiv b] }, [])) ∧
    (e.field.get e.pc_x e.pc_y = some 37 → b ≠ 0 →
      ¬(a = -2147483648 ∧ b = -1) →
      BefungeExecution.step inp e =
        some (BefungeExecution.move_pc { e with stack := s2 ++ [a.tmod b] }, [])) ∧
    ((e.field.get e.pc_x e.pc_y = some 47 ∨ e.field.get e.pc_x e.pc_y = some 37) →
      a = -2147483648 → b = -1 → BefungeExecution.step inp e = none) ∧
    (e.field.get e.pc_x e.pc_y = some 96 →
      BefungeExecution.step inp e =
        some (BefungeExecution.move_pc
          { e with stack := s2 ++ [if a > b then (1 : Int) else 0] }, [])) ∧
    (FungeField.from_str [49, 50, 45] 3 1 = some ⟨3, 1, [49, 50, 45]⟩ ∧
      (stepN inp0 3 (BefungeExecution.new ⟨3, 1, [49, 50, 45]⟩)).map
        (fun x => x.stack) = some [1]) := by
  rw [popD] at h1 h2
  injection h1 with hA hS1
  subst hA; subst hS1
  injection h2 with hB hS2
  subst hB; subst hS2
  refine ⟨fun hcell hlo hhi => ?_, fun hcell hb hovf => ?_, fun hcell hb hovf => ?_,
    fun hcell hA2 hB2 => ?_, fun hcell => ?_, by decide, by decide⟩
  · have hw := wrap32_eq_self _ hlo hhi
    simp [BefungeExecution.step, ha, hs, hcell, BefungeExecution.dispatch, popD,
      BefungeExecution.moveIfActive, hw]
  · simp [BefungeExecution.step, ha, hs, hcell, BefungeExecution.dispatch, popD,
      BefungeExecution.moveIfActive, hb, hovf]
  · simp [BefungeExecution.step, ha, hs, hcell, BefungeExecution.dispatch, popD,
      BefungeExecution.moveIfActive, hb, hovf]
  · rcases hcell with hcell | hcell <;>
      simp [BefungeExecution.step, ha, hs, hcell, BefungeExecution.dispatch, popD,
        hA2, hB2]
  · simp [BefungeExecution.step, ha, hs, hcell, BefungeExecution.dispatch, popD,
      BefungeExecution.moveIfActive]

/-- Concrete state for the C1 witness: `-` under the pointer, stack `[5, 2]`. -/
def eSub : BefungeExecution := ⟨0, 0, Delta.Right, false, ⟨1, 1, [45]⟩, [5, 2], true⟩

/-- C1 witness: `-` at a concrete state pops 2 then 5 and pushes `2 - 5 = -3`,
which is representable in `i32`. -/
theorem binary_pop_order_witness :
    BefungeExecution.step inp0 eSub =
      some (BefungeExecution.move_pc { eSub with stack := [-3] }, []) := by
  have h := (binary_pop_order inp0 eSub 2 5 [5] [] rfl rfl (by decide) (by decide)).1
    (by decide) (by decide) (by decide)
  simpa using h

/-- Concrete state for C3: `!` under the pointer, stack `[-1]`. -/
def eNeg : BefungeExecution := ⟨0, 0, Delta.Right, false, ⟨1, 1, [33]⟩, [-1], true⟩

/-- C3 counterexample: executing `!` on top value `-1` pushes `1`, not the `0`
the claim requires for strictly negative operands. -/
theorem negate_negative_counterexample :
    (BefungeExecution.step inp0 eNeg).map (fun p => p.1.stack) = some [1] ∧
    ¬ (BefungeExecution.step inp0 eNeg).map (fun p => p.1.stack) = some [0] := by
  decide

/-- C3 amended: on a running, non-string-mode state whose current cell is `!`
(33), the step pops one value `a` (zero when the stack is empty) and pushes
`0` if `a > 0` and pushes `1` for every other `a` — in particular it pushes
`1` for zero and for every strictly negative `a`. -/
theorem negate_pushes_on_sign (inp : ExtInput) (e : BefungeExecution)
    (a : Int) (s : List Int)
    (ha : e.active = true) (hs : e.string_mode = false)
    (h1 : popD e.stack = (a, s))
    (hcell : e.field.get e.pc_x e.pc_y = some 33) :
    BefungeExecution.step inp e =
      some (BefungeExecution.move_pc
        { e with stack := s ++ [if a > 0 then (0 : Int) else 1] }, []) := by
  rw [popD] at h1
  injection h1 with hA hS
  subst hA; subst hS
  simp [BefungeExecution.step, ha, hs, hcell, BefungeExecution.dispatch, popD,
    BefungeExecution.moveIfActive]

/-- C3 witness: `!` on the concrete state with stack `[-1]` pushes `1`. -/
theorem negate_pushes_on_sign_witness :
    BefungeExecution.step inp0 eNeg =
      some (BefungeExecution.move_pc { eNeg with stack := [1] }, []) := by
  have h := negate_pushes_on_sign inp0 eNeg (-1) [] rfl rfl (by decide) (by decide)
  simpa using h

end Befuddle

namespace Befuddle

/-- Concrete state for C5: `g` under the pointer with a negative popped row
operand on the stack. -/
def eGetNeg : BefungeExecution := ⟨0, 0, Delta.Right, false, ⟨1, 1, [103]⟩, [-1], true⟩

/-- C5 counterexample: executing `g` with popped row operand `-1` aborts the
step (the `usize` conversion panics), rather than pushing nothing and
continuing as the claim requires. -/
theorem get_put_negative_counterexample :
    BefungeExecution.step inp0 eGetNeg = none ∧
    ¬ BefungeExecution.step inp0 eGetNeg =
        some (BefungeExecution.move_pc { eGetNeg with stack := [] }, []) := by
  decide

/-- C5 amended: on a running, non-string-mode state, when the popped row `a`
and column `b` operands are both nonnegative, `g` pushes the Field value at
`(col, row)` when in-bounds and pushes nothing otherwise, and `p` writes the
popped value at `(col, row)` when in-bounds and is a no-op otherwise, never
failing; when a popped row or column operand is negative, the step aborts. -/
theorem get_put_bounds_policy (inp : ExtInput) (e : BefungeExecution)
    (a b : Int) (s1 s2 : List Int)
    (ha : e.active = true) (hs : e.string_mode = false)
    (h1 : popD e.stack = (a, s1)) (h2 : popD s1 = (b, s2)) :
    (e.field.get e.pc_x e.pc_y = some 103 →
      (0 ≤ a → 0 ≤ b →
        BefungeExecution.step inp e =
          some (BefungeExecution.move_pc
            { e with stack :=
                s2 ++ (e.field.get b.toNat a.toNat).elim [] (fun v => [v]) }, [])) ∧
      (a < 0 ∨ b < 0 → BefungeExecution.step inp e = none)) ∧
    (e.field.get e.pc_x e.pc_y = some 112 →
      ∀ v s3, popD s2 = (v, s3) →
        (0 ≤ a → 0 ≤ b →
          BefungeExecution.step inp e =
            some (BefungeExecution.move_pc
              { e with stack := s3
                       field := e.field.set b.toNat a.toNat v }, [])) ∧
        (a < 0 ∨ b < 0 → BefungeExecution.step inp e = none)) := by
  rw [popD] at h1 h2
  injection h1 with hA hS1
  subst hA; subst hS1
  injection h2 with hB hS2
  subst hB; subst hS2
  constructor
  · intro hcell
    constructor
    · intro haa hbb
      rcases hg : e.field.get (e.stack.dropLast.getLast?.getD 0).toNat
          (e.stack.getLast?.getD 0).toNat with _ | val <;>
        simp [BefungeExecution.step, ha, hs, hcell, BefungeExecution.dispatch, popD,
          BefungeExecution.moveIfActive, not_lt.mpr haa, not_lt.mpr hbb, hg]
    · intro hneg
      rcases hneg with hA | hB
      · simp [BefungeExecution.step, ha, hs, hcell, BefungeExecution.dispatch, popD, hA]
      · by_cases hA : e.stack.getLast?.getD 0 < 0
        · simp [BefungeExecution.step, ha, hs, hcell, BefungeExecution.dispatch, popD, hA]
        · simp [BefungeExecution.step, ha, hs, hcell, BefungeExecution.dispatch, popD,
            hA, hB]
  · intro hcell v s3 h3
    rw [popD] at h3
    injection h3 with hV hS3
    subst hV; subst hS3
    constructor
    · intro haa hbb
      simp [BefungeExecution.step, ha, hs, hcell, BefungeExecution.dispatch, popD,
        BefungeExecution.moveIfActive, not_lt.mpr haa, not_lt.mpr hbb]
    · intro hneg
      rcases hneg with hA | hB
      · simp [BefungeExecution.step, ha, hs, hcell, BefungeExecution.dispatch, popD, hA]
      · by_cases hA : e.stack.getLast?.getD 0 < 0
        · simp [BefungeExecution.step, ha, hs, hcell, BefungeExecution.dispatch, popD, hA]
        · simp [BefungeExecution.step, ha, hs, hcell, BefungeExecution.dispatch, popD,
            hA, hB]

/-- Concrete state for the C5 witness: `g` on a 1×1 field with an empty stack;
both operands default to zero, and the read of `(0, 0)` yields `g` itself. -/
def eGet : BefungeExecution := BefungeExecution.new ⟨1, 1, [103]⟩

/-- C5 witness: `g` with defaulted zero operands pushes the cell `(0,0)`,
which holds `g` (103). -/
theorem get_put_bounds_policy_witness :
    BefungeExecution.step inp0 eGet =
      some (BefungeExecution.move_pc { eGet with stack := [103] }, []) := by
  have h := ((get_put_bounds_policy inp0 eGet 0 0 [] []
    rfl rfl (by decide) (by decide)).1 (by decide)).1 (by decide) (by decide)
  simpa using h

end Befuddle

namespace Befuddle

/-- Concrete state for C7: a halted state in string mode whose current cell is
the string-mode toggle `"` (34). -/
def eHalt : BefungeExecution := ⟨0, 0, Delta.Right, true, ⟨1, 1, [34]⟩, [], false⟩

/-- C7 counterexample: in a halted execution state with `string_mode` set and
the current cell equal to `"`, the step leaves `string_mode` set (the step is
an inactive no-op), so the claim quantified over every execution state with
`string_mode` true is false. -/
theorem string_mode_halted_counterexample :
    eHalt.field.get eHalt.pc_x eHalt.pc_y = some 34 ∧
    BefungeExecution.step inp0 eHalt = some (eHalt, []) ∧
    eHalt.string_mode = true := by
  decide

/-- C7 amended: on every RUNNING execution state with `string_mode` true,
a step whose current cell equals the toggle `"` (34) clears `string_mode`
and pushes nothing, and a step on any other cell pushes that cell's raw
value unchanged; the program `"0123456789"0` on a 13×1 field yields stack
`[48, ..., 57, 0]` after 13 steps. -/
theorem string_mode_step (inp : ExtInput) (e : BefungeExecution)
    (ha : e.active = true) (hsm : e.string_mode = true) :
    (e.field.get e.pc_x e.pc_y = some 34 →
      BefungeExecution.step inp e =
        some (BefungeExecution.move_pc { e with string_mode := false }, [])) ∧
    (∀ c, c ≠ 34 → e.field.get e.pc_x e.pc_y = some c →
      BefungeExecution.step inp e =
        some (BefungeExecution.move_pc { e with stack := e.stack ++ [c] }, [])) ∧
    (FungeField.from_str [34, 48, 49, 50, 51, 52, 53, 54, 55, 56, 57, 34, 48] 13 1 =
        some ⟨13, 1, [34, 48, 49, 50, 51, 52, 53, 54, 55, 56, 57, 34, 48]⟩ ∧
      (stepN inp0 13 (BefungeExecution.new
          ⟨13, 1, [34, 48, 49, 50, 51, 52, 53, 54, 55, 56, 57, 34, 48]⟩)).map
        (fun x => x.stack) = some [48, 49, 50, 51, 52, 53, 54, 55, 56, 57, 0]) := by
  refine ⟨fun hcell => ?_, fun c hc hcell => ?_, by decide, by decide⟩
  · simp [BefungeExecution.step, ha, hsm, hcell, BefungeExecution.moveIfActive]
  · simp [BefungeExecution.step, ha, hsm, hcell, hc, BefungeExecution.moveIfActive]

/-- Concrete state for the C7 witness: string mode on, current cell `a` (97). -/
def eStr : BefungeExecution := ⟨0, 0, Delta.Right, true, ⟨1, 1, [97]⟩, [], true⟩

/-- C7 witness: in string mode the cell 97 is pushed verbatim. -/
theorem string_mode_step_witness :
    BefungeExecution.step inp0 eStr =
      some (BefungeExecution.move_pc { eStr with stack := [97] }, []) := by
  have h := (string_mode_step inp0 eStr rfl rfl).2.1 97 (by decide) (by decide)
  simpa using h

/-- C6: popping an empty stack yields the defaulted value zero rather than
failing; in particular one step of the program `p` on a 1×1 field starting
from the empty stack pops three defaulted zeros and writes 0 into cell
`(0, 0)`, after which `get 0 0` returns that written 0. -/
theorem underflow_default_zero :
    popD ([] : List Int) = (0, []) ∧
    FungeField.from_str [112] 1 1 = some ⟨1, 1, [112]⟩ ∧
    BefungeExecution.step inp0 (BefungeExecution.new ⟨1, 1, [112]⟩) =
      some (BefungeExecution.move_pc
        { BefungeExecution.new ⟨1, 1, [112]⟩ with
            field := FungeField.set ⟨1, 1, [112]⟩ 0 0 0 }, []) ∧
    (stepN inp0 1 (BefungeExecution.new ⟨1, 1, [112]⟩)).map
      (fun x => x.field.get 0 0) = some (some 0) := by
  decide

end Befuddle

namespace Befuddle

/-- Writing at index `i` leaves `getD` at any other index unchanged. -/
theorem getD_set_ne (l : List Int) (i j : Nat) (v d : Int) (hij : i ≠ j) :
    (l.set i v).getD j d = l.getD j d := by
  rw [List.getD_eq_getElem?_getD, List.getD_eq_getElem?_getD, List.getElem?_set_ne hij]

/-- The inner load loop never fails when the row fits (`yOff + width ≤ length`),
preserves the cell count, and only touches the indices in `writtenIdxLine`. -/
theorem loadLine_spec (w yOff : Nat) (cs : List Nat) :
    ∀ (x : Nat) (cells : List Int), yOff + w ≤ cells.length →
      ∃ cells2, FungeField.loadLine w yOff cs x cells = some cells2 ∧
        cells2.length = cells.length ∧
        ∀ i, i ∉ FungeField.writtenIdxLine w yOff cs x →
          cells2.getD i 0 = cells.getD i 0 := by
  induction cs with
  | nil => exact fun x cells _ => ⟨cells, rfl, rfl, fun i _ => rfl⟩
  | cons c cs ih =>
    intro x cells hlen
    by_cases hbrk : w ≤ x ∨ 1 < FungeField.utf8Len c
    · exact ⟨cells, by simp [FungeField.loadLine, hbrk], rfl, fun i _ => rfl⟩
    · have hx : x < w := by
        rcases not_or.mp hbrk with ⟨h1, _⟩
        omega
      have hidx : x + yOff < cells.length := by omega
      have hset : FungeField.setCellChecked cells (x + yOff) (Int.ofNat c) =
          some (cells.set (x + yOff) (Int.ofNat c)) := by
        simp [FungeField.setCellChecked, hidx]
      obtain ⟨cells2, hload, hlen2, hframe⟩ :=
        ih (x + 1) (cells.set (x + yOff) (Int.ofNat c)) (by simpa using hlen)
      refine ⟨cells2, ?_, by simpa using hlen2, ?_⟩
      · simp only [FungeField.loadLine]
        rw [if_neg hbrk, hset]
        exact hload
      · intro i hi
        simp only [FungeField.writtenIdxLine, if_neg hbrk, List.mem_cons, not_or] at hi
        rw [hframe i hi.2]
        exact getD_set_ne _ _ _ _ _ (fun hEq => hi.1 hEq.symm)

/-- The outer load loop never fails on a grid of `w * h` cells, preserves the
cell count, and only touches the indices in `writtenIdx`. -/
theorem loadLines_spec (w h : Nat) (ls : List (List Nat)) :
    ∀ (y : Nat) (cells : List Int), cells.length = w * h →
      ∃ cells2, FungeField.loadLines w h ls y cells = some cells2 ∧
        cells2.length = cells.length ∧
        ∀ i, i ∉ FungeField.writtenIdx w h ls y →
          cells2.getD i 0 = cells.getD i 0 := by
  induction ls with
  | nil => exact fun y cells _ => ⟨cells, rfl, rfl, fun i _ => rfl⟩
  | cons l ls ih =>
    intro y cells hlen
    by_cases hy : h ≤ y
    · exact ⟨cells, by simp [FungeField.loadLines, hy], rfl, fun i _ => rfl⟩
    · have hbound : y * w + w ≤ cells.length := by
        have h1 : (y + 1) * w ≤ h * w := Nat.mul_le_mul_right w (by omega)
        have h2 : y * w + w = (y + 1) * w := by ring
        rw [hlen, Nat.mul_comm w h]
        omega
      obtain ⟨cellsA, hloadA, hlenA, hframeA⟩ := loadLine_spec w (y * w) l 0 cells hbound
      obtain ⟨cellsB, hloadB, hlenB, hframeB⟩ := ih (y + 1) cellsA (by rw [hlenA, hlen])
      refine ⟨cellsB, ?_, by rw [hlenB, hlenA], ?_⟩
      · simp [FungeField.loadLines, hy, hloadA, hloadB]
      · intro i hi
        simp only [FungeField.writtenIdx, if_neg hy, List.mem_append, not_or] at hi
        rw [hframeB i hi.2, hframeA i hi.1]

/-- C10: for every input string (as a list of code points) and every width and
height (including zero), `from_str` is total — every cell write during the
load is in-bounds, so it never fails — and the resulting field's width,
height and cell count equal the constructor arguments, while every in-bounds
cell not overwritten by the load still holds the space character 32. -/
theorem from_str_total (input : List Nat) (w h : Nat) :
    ∃ f, FungeField.from_str input w h = some f ∧ f.width = w ∧ f.height = h ∧
      f.cells.length = w * h ∧
      ∀ i, i < w * h →
        i ∉ FungeField.writtenIdx w h (FungeField.rustLines input) 0 →
          f.cells.getD i 0 = 32 := by
  obtain ⟨cells2, hload, hlen, hframe⟩ :=
    loadLines_spec w h (FungeField.rustLines input) 0 (List.replicate (w * h) 32)
      (by simp)
  refine ⟨⟨w, h, cells2⟩, ?_, rfl, rfl, by simpa using hlen, ?_⟩
  · simp only [FungeField.from_str, FungeField.new]
    rw [hload]
  · intro i hi hni
    rw [hframe i hni, List.getD_eq_getElem?_getD, List.getElem?_replicate, if_pos hi]
    rfl

/-- C10 witness: loading `0\n1` into a 2×2 grid writes indices 0 and 2 and
leaves index 3 holding the space character. -/
theorem from_str_total_witness :
    FungeField.from_str [48, 10, 49] 2 2 = some ⟨2, 2, [48, 32, 49, 32]⟩ ∧
    FungeField.writtenIdx 2 2 (FungeField.rustLines [48, 10, 49]) 0 = [0, 2] ∧
    (⟨2, 2, [48, 32, 49, 32]⟩ : FungeField).cells.getD 3 0 = 32 := by
  obtain ⟨f, hf, hw, hh, hlen, hsp⟩ := from_str_total [48, 10, 49] 2 2
  have heq : f = ⟨2, 2, [48, 32, 49, 32]⟩ := by
    have h2 : some f = some (⟨2, 2, [48, 32, 49, 32]⟩ : FungeField) := by
      rw [← hf]; decide
    exact Option.some.inj h2
  refine ⟨heq ▸ hf, by decide, ?_⟩
  have h3 := hsp 3 (by decide) (by decide)
  rw [heq] at h3
  exact h3

end Befuddle
